import Mathlib

/-!
Verification of the patchlab email/merge-request bridge.

This file is a shallow embedding, in Lean 4, of the parts of patchlab that
the verified properties talk about:

* `src/patchlab/models.py` — the `BridgedSubmission` / `GitForge` / `Branch`
  data model and `GitForge.branch` resolution;
* `src/patchlab/gitlab2email.py` — `email_merge_request`, `_ignore`,
  `_reroll`, `_prepare_emails`, `_record_bridging` and the send loop;
* `src/patchlab/bridge.py` — `open_merge_request`, `_create_remote_branch`
  (as an outcome oracle) and `_notify_am_failure`;
* `src/patchlab/views/gitlab.py` — the `web_hook` dispatcher and its three
  handlers.

External collaborators (the Python regex engine, `email.utils.parseaddr`,
`textwrap.fill`, `make_msgid`, `formatdate`, the git executable, the GitLab
REST client, SMTP and the patchwork parser/store) are modelled as explicit
oracle functions or state carried in an environment record, mirroring the
specification's treatment of them as external interfaces.  Databases are
modelled as lists of rows; Django querysets become list operations.
-/

/-! ## Python string primitives used by the source -/

/-- The set of characters `str.splitlines` treats as line boundaries in
Python (with `\r\n` additionally handled as a single boundary). -/
def pyIsLinebreak (c : Char) : Bool :=
  c = '\n' || c = '\r' || c = '\x0b' || c = '\x0c' ||
  c = '\x1c' || c = '\x1d' || c = '\x1e' || c = '\u0085' ||
  c = ' ' || c = ' '

/-- Worker for `pySplitlines`: `acc` holds the current line, reversed.
A `"\r\n"` pair counts as a single boundary; a boundary at the end of the
input produces no trailing empty line. -/
def pySplitlinesAux : List Char → List Char → List (List Char)
  | [], acc => [acc.reverse]
  | c :: rest, acc =>
    if pyIsLinebreak c then
      match rest with
      | [] => [acc.reverse]
      | r :: rs =>
        if c = '\r' && r = '\n' then
          match rs with
          | [] => [acc.reverse]
          | _ :: _ => acc.reverse :: pySplitlinesAux rs []
        else
          acc.reverse :: pySplitlinesAux (r :: rs) []
    else
      pySplitlinesAux rest (c :: acc)

/-- Python's `str.splitlines()` on a list of characters: split at line
boundaries, not keeping them, with no trailing empty line when the string
ends in a line boundary, and `[]` for the empty string. -/
def pySplitlines (cs : List Char) : List (List Char) :=
  match cs with
  | [] => []
  | c :: rest => pySplitlinesAux (c :: rest) []

/-- `" ".join(lines)`. -/
def joinSpace : List (List Char) → List Char
  | [] => []
  | [l] => l
  | l :: l' :: rest => l ++ ' ' :: joinSpace (l' :: rest)

/-- `"\n".join(lines)`. -/
def joinNewline : List String → String
  | [] => ""
  | [l] => l
  | l :: l' :: rest => l ++ "\n" ++ joinNewline (l' :: rest)

/-- `" ".join(s.splitlines())` — the source's defense against multi-line
titles leaking into the `Subject` header
(`src/patchlab/gitlab2email.py` lines 275 and 308). -/
def sanitizeTitle (s : String) : String :=
  ⟨joinSpace (pySplitlines s.data)⟩

/-- A decimal digit character. -/
def decDigitChar (d : Nat) : Char :=
  if d = 0 then '0' else if d = 1 then '1' else if d = 2 then '2'
  else if d = 3 then '3' else if d = 4 then '4' else if d = 5 then '5'
  else if d = 6 then '6' else if d = 7 then '7' else if d = 8 then '8'
  else '9'

/-- Worker for `natChars`, with enough fuel to cover every digit. -/
def natCharsAux : Nat → Nat → List Char
  | 0, _ => []
  | fuel + 1, n =>
    if n < 10 then [decDigitChar n]
    else natCharsAux fuel (n / 10) ++ [decDigitChar (n % 10)]

/-- Decimal digits of a natural number, most significant first
(`n + 1` fuel always suffices: a number has at most `n + 1` digits). -/
def natChars (n : Nat) : List Char := natCharsAux (n + 1) n

/-- Python's `str(n)` for a non-negative integer. -/
def natStr (n : Nat) : String := ⟨natChars n⟩

/-- Python's `str(n)` for an integer. -/
def intStr (n : Int) : String :=
  if n < 0 then "-" ++ natStr (-n).toNat else natStr n.toNat

/-- Lexicographic (code-point) comparison of character lists, which is what
Python's `<` on `str` performs. -/
def charsLt : List Char → List Char → Bool
  | [], [] => false
  | [], _ :: _ => true
  | _ :: _, [] => false
  | a :: as, b :: bs => if a < b then true else if b < a then false else charsLt as bs

/-- Remove duplicates, keeping first occurrences (`set(...)` then relisting;
the subsequent sort makes the retained occurrence irrelevant). -/
def dedupAux : List String → List String → List String
  | [], _ => []
  | x :: rest, seen =>
    if x ∈ seen then dedupAux rest seen else x :: dedupAux rest (x :: seen)

def dedupStrings (xs : List String) : List String := dedupAux xs []

/-- Insert into a sorted list of strings. -/
def insertSorted (s : String) : List String → List String
  | [] => [s]
  | t :: rest => if charsLt s.data t.data then s :: t :: rest else t :: insertSorted s rest

/-- Sort strings lexicographically (Python's `sorted`). -/
def sortStrings : List String → List String
  | [] => []
  | s :: rest => insertSorted s (sortStrings rest)

/-- Python's `sorted(list(set(xs)))`. -/
def sortedSet (xs : List String) : List String := sortStrings (dedupStrings xs)

/-- ASCII whitespace as matched by `\s` and stripped by `str.strip()`
(the source only ever feeds it ASCII header-like lines). -/
def pyIsSpace (c : Char) : Bool :=
  c = ' ' || c = '\t' || c = '\n' || c = '\r' || c = '\x0b' || c = '\x0c'

/-- Python's `str.strip()`. -/
def pyStrip (s : String) : String :=
  ⟨((s.data.dropWhile pyIsSpace).reverse.dropWhile pyIsSpace).reverse⟩

/-! ## Data model (`src/patchlab/models.py`) -/

/-- A `BridgedSubmission` row: the ledger's core entity.  The one-to-one
`submission` reference is identified by the submission's message id, which
is how `_reroll` and `email_comment` consume it. -/
structure Row where
  msgid : String
  gitForge : Nat
  mergeRequest : Nat
  commit : Option String
  seriesVersion : Option Int
deriving DecidableEq, Repr

/-- A `Branch` row: name, subject regex and subject tag for outgoing mail. -/
structure BranchRow where
  name : String
  subjectTag : String
  subjectMatch : String
deriving DecidableEq, Repr

/-- A `GitForge` row together with the fields of its associated patchwork
project that the bridge reads (`listemail`, `listid`, `web_url`). -/
structure Forge where
  key : Nat
  host : String
  forgeId : Nat
  listemail : String
  listid : String
  projectWebUrl : String
  branches : List BranchRow
deriving DecidableEq, Repr

/-- `GitForge.branch` (`src/patchlab/models.py` lines 90-104): iterate the
forge's branches, return the name of the first whose `subject_match` regex
finds a match in the submission's `Subject` header, and raise `ValueError`
when none matches.  `search` stands for Python's
`re.search(pattern, subject, flags=re.MULTILINE | re.IGNORECASE)`. -/
def branchResolve (search : String → String → Bool) :
    List BranchRow → String → Except String String
  | [], _ => .error "No branch matches"
  | b :: rest, subj =>
    if search b.subjectMatch subj then .ok b.name
    else branchResolve search rest subj

/-! ## MR→Email bridge (`src/patchlab/gitlab2email.py`) -/

/-- One commit of a merge request, with the fields the source reads. -/
structure Commit where
  id : String
  title : String
  message : String
  authorEmail : String
deriving DecidableEq, Repr

/-- A GitLab merge request, with the fields the source reads.
`commitsApi` is the list returned by `merge_request.commits()`, in the
order the GitLab API returns it; `headPipeline` is `None` or a pipeline
with the given `status`. -/
structure MergeRequest where
  iid : Nat
  sha : String
  workInProgress : Bool
  mergeStatus : String
  headPipeline : Option String
  labels : List String
  targetBranch : String
  title : String
  description : Option String
  authorUsername : String
  webUrl : String
  commitsApi : List Commit
deriving DecidableEq, Repr

/-- The Django settings the bridge reads. -/
structure Settings where
  pipelineSuccessRequired : Bool
  pipelineMaxWait : Nat
  maxEmails : Nat
  ignoreLabels : List String
deriving DecidableEq, Repr

/-- The external collaborators of the MR→Email path, as oracles:
`search` is `re.search` (with the source's flags), `ccAllowed` is
`re.search(settings.PATCHLAB_CC_FILTER, cc, re.IGNORECASE)`, `parseAddr`
is `email.utils.parseaddr(cc)[1]`, `fill` is
`textwrap.fill(line, width=72, replace_whitespace=False)`, `msgidGen`
supplies the values of successive `email.utils.make_msgid` calls, `now` is
`email.utils.formatdate`, `fromFmt` is
`settings.PATCHLAB_FROM_EMAIL.format(forge_user=...)`, `patchFrom` and
`patchPayload` are the `From` header and payload of the forge-rendered
patch fetched for a commit id, `sendOk` tells whether the SMTP send of the
message with a given message id succeeds, and `subjectFilteredOut` tells
whether patchwork's project subject filter drops the message with a given
message id after parsing. -/
structure Env where
  search : String → String → Bool
  ccAllowed : String → Bool
  parseAddr : String → String
  fill : String → String
  msgidGen : Nat → String
  now : String
  fromFmt : String → String
  patchFrom : String → String
  patchPayload : String → String
  sendOk : String → Bool
  subjectFilteredOut : String → Bool

/-- An outgoing email as built by `_prepare_emails`: the
`django.core.mail.EmailMessage` fields plus the extra headers the source
sets (`Message-ID`, `In-Reply-To`, `X-Patchlab-Commit`,
`X-Patchlab-Series-Version`, `X-Patchlab-Merge-Request`). -/
structure Email where
  subject : String
  body : String
  fromEmail : String
  toAddrs : List String
  cc : List String
  msgid : String
  inReplyTo : Option String
  xCommit : Option String
  seriesVersion : Int
  mrUrl : String
deriving DecidableEq, Repr

/-- Ordering used by `order_by("-series_version").first()`: `a` sorts
strictly before `b` in descending order iff `a < b`, with SQL `NULL`
smaller than every value. -/
def versionLt (a b : Option Int) : Bool :=
  match a, b with
  | none, none => false
  | none, some _ => true
  | some _, none => false
  | some x, some y => x < y

/-- `prior_submissions.order_by("-series_version").first()`: the row with
the greatest `series_version` (the first such row on ties), `NULL`
sorting below every value. -/
def latestBy : List Row → Option Row
  | [] => none
  | r :: rest =>
    match latestBy rest with
    | none => some r
    | some l => if versionLt r.seriesVersion l.seriesVersion then some l else some r

/-- The prior-submission query of `_reroll`
(`src/patchlab/gitlab2email.py` lines 166-168). -/
def priorSubmissions (db : List Row) (forge : Nat) (iid : Nat) : List Row :=
  db.filter (fun r => r.gitForge = forge && r.mergeRequest = iid)

/-- `_reroll` (`src/patchlab/gitlab2email.py` lines 164-180): the reroll
version and `In-Reply-To` for the next bridging of a merge request.
Python's `if latest_submission.series_version:` is falsy for both `None`
and `0`. -/
def reroll (db : List Row) (forge : Nat) (iid : Nat) : Int × Option String :=
  match latestBy (priorSubmissions db forge iid) with
  | none => (1, none)
  | some l =>
    match l.seriesVersion with
    | some v => (if v ≠ 0 then v + 1 else 1, some l.msgid)
    | none => (1, some l.msgid)

/-- `pySplitlines` on a `String`, producing `String`s. -/
def pySplitlinesStr (s : String) : List String :=
  (pySplitlines s.data).map (⟨·⟩)

/-- Consume `tag` followed by a `:` from the front of `cs`. -/
def afterTag : List Char → List Char → Option (List Char)
  | [], ':' :: r2 => some r2
  | [], _ => none
  | t :: ts, c :: cs => if c = t then afterTag ts cs else none
  | _ :: _, [] => none

/-- `re.search(r"^\s*Cc:\s+(.*)$", line)`'s group 1
(`src/patchlab/gitlab2email.py` line 188): leading whitespace, `Cc:`, at
least one whitespace character, then the greedy remainder of the line. -/
def ccLineValue (line : String) : Option String :=
  match afterTag "Cc".data (line.data.dropWhile pyIsSpace) with
  | some (c :: rest) =>
    if pyIsSpace c then some ⟨(c :: rest).dropWhile pyIsSpace⟩ else none
  | _ => none

/-- `re.search(r"^\s*(Cc|Signed-off-by|Reviewed-by):\s+(.*)$", line)`'s
group 2 (`src/patchlab/gitlab2email.py` line 199). -/
def tagLineValue (line : String) : Option String :=
  let r1 := line.data.dropWhile pyIsSpace
  let tryOne : String → Option String := fun tag =>
    match afterTag tag.data r1 with
    | some (c :: rest) =>
      if pyIsSpace c then some ⟨(c :: rest).dropWhile pyIsSpace⟩ else none
    | _ => none
  tryOne "Cc" <|> tryOne "Signed-off-by" <|> tryOne "Reviewed-by"

/-- `_clean_ccs` (`src/patchlab/gitlab2email.py` lines 206-218): parse each
candidate to a bare address, drop empty parses, keep those matching the
configured allow-regex, deduplicate and sort. -/
def cleanCcs (env : Env) (ccs : List String) : List String :=
  let parsed := ccs.filterMap (fun cc =>
    let a := env.parseAddr cc
    if a = "" then none else some a)
  sortedSet (parsed.filter env.ccAllowed)

/-- `_merge_request_ccs` (`src/patchlab/gitlab2email.py` lines 183-193). -/
def mergeRequestCcs (env : Env) (mr : MergeRequest) : List String :=
  let fromDescription :=
    match mr.description with
    | some d => (pySplitlinesStr d).filterMap ccLineValue
    | none => []
  let fromLabels := mr.labels.filterMap (fun l =>
    if l.startsWith "Cc:" then some (pyStrip (l.drop 3)) else none)
  cleanCcs env (fromDescription ++ fromLabels)

/-- `_commit_ccs` (`src/patchlab/gitlab2email.py` lines 196-203): the commit
author plus every non-empty `Cc`/`Signed-off-by`/`Reviewed-by` trailer of
the commit message. -/
def commitCcs (env : Env) (c : Commit) : List String :=
  let trailers := (pySplitlinesStr c.message).filterMap (fun line =>
    match tagLineValue line with
    | some v => if pyStrip v ≠ "" then some (pyStrip v) else none
    | none => none)
  cleanCcs env (c.authorEmail :: trailers)

/-- The GitLab project object, as read by `_prepare_emails`. -/
structure GlProject where
  webUrl : String
deriving DecidableEq, Repr

/-- `BIG_EMAIL_TEMPLATE` (`src/patchlab/gitlab2email.py` lines 30-48) up to
its `{remote_url}` placeholder, applied to the
`description or "No description provided for merge request."` argument. -/
def bigPre (description : String) : String :=
  (if description = "" then "No description provided for merge request." else description) ++
  "\nNote:\n\nThe patch series is too large to sent by email.\n\n" ++
  "To review the series locally, set up your repository to fetch from the GitLab\n" ++
  "remote:\n\n  $ git remote add gitlab "

/-- `BIG_EMAIL_TEMPLATE` between its `{remote_url}` and `{merge_url}`
placeholders. -/
def bigMid (mergeIid : Nat) : String :=
  "\n  $ git config remote.gitlab.fetch \x27+refs/merge-requests/*/head:refs/remotes/gitlab/merge-requests/*\x27\n" ++
  "  $ git fetch gitlab\n\nFinally, check out the merge request:\n\n" ++
  "  $ git checkout gitlab/merge-requests/" ++ natStr mergeIid ++ "\n\n" ++
  "It is also possible to review the merge request on GitLab at:\n    "

/-- `BIG_EMAIL_TEMPLATE.format(...)`
(`src/patchlab/gitlab2email.py` lines 30-48 and 288-293). -/
def bigEmailBody (description remoteUrl : String) (mergeIid : Nat) (mergeUrl : String) : String :=
  bigPre description ++ remoteUrl ++ bigMid mergeIid ++ mergeUrl ++ "\n"

/-- The per-commit loop of `_prepare_emails`
(`src/patchlab/gitlab2email.py` lines 299-339).  `i` is the 1-based patch
number, `k` the index of the next `make_msgid` call, `emails` the emails
composed so far (the cover letter first when there is one; its Cc list is
back-filled with each patch's Ccs). -/
def patchLoop (env : Env) (branch : BranchRow) (fromEmail listemail : String)
    (mrUrl : String) (seriesVersion : Int) (versionTag : String)
    (inReplyTo : Option String) (numCommits : Nat) (mrCcList : List String) :
    List Commit → Nat → Nat → List Email → List Email
  | [], _, _, emails => emails
  | c :: rest, i, k, emails =>
    let patchAuthor := env.patchFrom c.id
    let patchNum := if numCommits = 1 then "" else " " ++ natStr i ++ "/" ++ natStr numCommits
    let subj := "[" ++ branch.subjectTag ++ " PATCH" ++ versionTag ++ patchNum ++ "] " ++
      sanitizeTitle c.title
    let patchCcs := sortedSet (commitCcs env c ++ mrCcList)
    let emails' :=
      if numCommits > 1 then
        match emails with
        | [] => []
        | e0 :: es => {e0 with cc := sortedSet (e0.cc ++ patchCcs)} :: es
      else emails
    let e : Email :=
      { subject := subj
        body := "From: " ++ patchAuthor ++ "\n\n" ++ env.patchPayload c.id
        fromEmail := fromEmail
        toAddrs := [listemail]
        cc := patchCcs
        msgid := env.msgidGen k
        inReplyTo := inReplyTo
        xCommit := some c.id
        seriesVersion := seriesVersion
        mrUrl := mrUrl }
    patchLoop env branch fromEmail listemail mrUrl seriesVersion versionTag
      inReplyTo numCommits mrCcList rest (i + 1) (k + 1) (emails' ++ [e])

/-- `_prepare_emails` (`src/patchlab/gitlab2email.py` lines 221-341). -/
def prepareEmails (env : Env) (S : Settings) (db : List Row) (forge : Forge)
    (project : GlProject) (mr : MergeRequest) : List Email :=
  match forge.branches.find? (fun b => b.name = mr.targetBranch) with
  | none => []
  | some branch =>
    let fromEmail := env.fromFmt mr.authorUsername
    let commits := mr.commitsApi.reverse
    let numCommits := commits.length
    let rr := reroll db forge.key mr.iid
    let seriesVersion := rr.1
    let versionTag := if seriesVersion > 1 then "v" ++ intStr seriesVersion else ""
    let ccs := mergeRequestCcs env mr
    if numCommits > 1 then
      let coverMsgid := env.msgidGen 0
      let wrapped :=
        match mr.description with
        | some d => joinNewline ((pySplitlinesStr d).map env.fill)
        | none => "The merge request had no description."
      let body := "From: " ++ mr.authorUsername ++ " on " ++ forge.host ++ "\n\n" ++ wrapped ++ "\n"
      let subject := "[" ++ branch.subjectTag ++ " PATCH" ++ versionTag ++ " 0/" ++
        natStr numCommits ++ "] " ++ sanitizeTitle mr.title
      let coverLetter : Email :=
        { subject := subject
          body := body
          fromEmail := fromEmail
          toAddrs := [forge.listemail]
          cc := ccs
          msgid := coverMsgid
          inReplyTo := rr.2
          xCommit := none
          seriesVersion := seriesVersion
          mrUrl := mr.webUrl }
      if numCommits > S.maxEmails then
        [{coverLetter with body := bigEmailBody body (project.webUrl ++ ".git") mr.iid mr.webUrl}]
      else
        patchLoop env branch fromEmail forge.listemail mr.webUrl seriesVersion versionTag
          (some coverMsgid) numCommits ccs commits 1 1 [coverLetter]
    else
      patchLoop env branch fromEmail forge.listemail mr.webUrl seriesVersion versionTag
        rr.2 numCommits ccs commits 1 0 []

/-- Python exceptions that the MR→Email path can raise. -/
inductive PyErr where
  | noneSubscript
  | doesNotExist
  | smtpFail (msgid : String)
deriving DecidableEq, Repr

/-- `_ignore` (`src/patchlab/gitlab2email.py` lines 127-161), with the
checks in source order.  `none["status"]` raises, so the pipeline check is
an `Except`. -/
def ignoreCheck (S : Settings) (db : List Row) (forge : Forge) (mr : MergeRequest) :
    Except PyErr Bool :=
  if mr.workInProgress then .ok true
  else if mr.mergeStatus = "cannot_be_merged" then .ok true
  else
    match (if S.pipelineSuccessRequired then
             match mr.headPipeline with
             | none => Except.error PyErr.noneSubscript
             | some st => Except.ok (st = "failed")
           else Except.ok false) with
    | .error e => .error e
    | .ok pipelineFailed =>
      if pipelineFailed then .ok true
      else if "From email" ∈ mr.labels then .ok true
      else if S.ignoreLabels.any (fun l => decide (l ∈ mr.labels)) then .ok true
      else if db.any (fun r =>
          r.gitForge = forge.key && r.mergeRequest = mr.iid && r.commit = some mr.sha) then
        .ok true
      else .ok false

/-- The observable outcome of one run of the MR→Email path: emails actually
handed to SMTP, the ledger, the patchwork submission store (as parsed
message ids), and the exception the run ended with, if any. -/
structure RunResult where
  sent : List Email
  db : List Row
  store : List String
  err : Option PyErr
deriving DecidableEq, Repr

/-- The `BridgedSubmission` built by `_record_bridging`
(`src/patchlab/gitlab2email.py` lines 446-453). -/
def recordRow (forgeKey mergeId : Nat) (e : Email) : Row :=
  { msgid := e.msgid
    gitForge := forgeKey
    mergeRequest := mergeId
    commit := e.xCommit
    seriesVersion := some e.seriesVersion }

/-- The send loop of `email_merge_request`
(`src/patchlab/gitlab2email.py` lines 110-124) together with
`_record_bridging` (lines 412-454): for each email, parse it into the
patchwork store (a duplicate message id raises `ValueError`, which skips
sending that email), fail if the project's subject filter dropped it,
persist the ledger row, then send; a send failure deletes the just-created
row and re-raises. -/
def sendLoop (env : Env) (forgeKey mergeId : Nat) :
    List Email → List String → List Row → RunResult
  | [], store, db => ⟨[], db, store, none⟩
  | e :: rest, store, db =>
    if e.msgid ∈ store then
      sendLoop env forgeKey mergeId rest store db
    else
      let store' := store ++ [e.msgid]
      if env.subjectFilteredOut e.msgid then
        ⟨[], db, store', some .doesNotExist⟩
      else
        let db' := db ++ [recordRow forgeKey mergeId e]
        if env.sendOk e.msgid then
          let r := sendLoop env forgeKey mergeId rest store' db'
          ⟨e :: r.sent, r.db, r.store, r.err⟩
        else
          ⟨[], db'.filter (fun r => r.msgid ≠ e.msgid), store', some (.smtpFail e.msgid)⟩

/-- The pipeline-wait loop of `email_merge_request`
(`src/patchlab/gitlab2email.py` lines 77-95) over a fixed merge request:
`ok true` means break-and-proceed (first status read is `failed` or
`success`), `ok false` means the wait budget elapses and the `for`-`else`
returns — including a zero budget, where the status is never read — and
the error is `None["status"]` on an absent pipeline. -/
def pipelineGate (S : Settings) (mr : MergeRequest) : Except PyErr Bool :=
  if S.pipelineSuccessRequired then
    if S.pipelineMaxWait = 0 then .ok false
    else
      match mr.headPipeline with
      | none => .error .noneSubscript
      | some st => if st = "failed" ∨ st = "success" then .ok true else .ok false
  else .ok true

/-- `email_merge_request` (`src/patchlab/gitlab2email.py` lines 51-124) for
a merge request whose forge state does not change during the run (the
re-fetches of lines 88 and 97 return the same merge request, so the
`initial_head` comparison succeeds).  The pipeline-wait loop of lines
78-95 then reduces to: proceed if the head pipeline's status is `failed`
or `success` on the first iteration, give up (`for`-`else`) otherwise —
including when `PATCHLAB_PIPELINE_MAX_WAIT` is `0`, where the status is
never read. -/
def emailMergeRequest (S : Settings) (env : Env) (db : List Row) (store : List String)
    (forge : Forge) (project : GlProject) (mr : MergeRequest) : RunResult :=
  match ignoreCheck S db forge mr with
  | .error e => ⟨[], db, store, some e⟩
  | .ok true => ⟨[], db, store, none⟩
  | .ok false =>
    match pipelineGate S mr with
    | .error e => ⟨[], db, store, some e⟩
    | .ok false => ⟨[], db, store, none⟩
    | .ok true =>
      match ignoreCheck S db forge mr with
      | .error e => ⟨[], db, store, some e⟩
      | .ok true => ⟨[], db, store, none⟩
      | .ok false =>
        sendLoop env forge.key mr.iid (prepareEmails env S db forge project mr) store db

/-! ## Email→MR bridge (`src/patchlab/bridge.py`) -/

/-- A patchwork submission (cover letter), with the fields the bridge
reads: its message id, its `Subject` header (what `GitForge.branch`
matches against) and its content. -/
structure Subm where
  msgid : String
  subjectHeader : String
  content : String
deriving DecidableEq, Repr

/-- A patchwork patch: the author-assigned patch `number` plus the same
submission fields. -/
structure Patch where
  number : Nat
  msgid : String
  subjectHeader : String
  content : String
deriving DecidableEq, Repr

/-- A patchwork series.  `patches` is in the related manager's default
order (what `series.patches.first()` iterates); `order_by("number")` is
applied explicitly where the source does. -/
structure Series where
  id : Nat
  name : String
  submitterEmail : String
  coverLetter : Option Subm
  patches : List Patch
deriving DecidableEq, Repr

/-- Stable insertion for `order_by("number")`. -/
def insertByNumber (p : Patch) : List Patch → List Patch
  | [] => [p]
  | q :: rest => if p.number ≤ q.number then p :: q :: rest else q :: insertByNumber p rest

/-- `series.patches.order_by("number")`: ascending author-assigned patch
number, stable. -/
def sortByNumber : List Patch → List Patch
  | [] => []
  | p :: rest => insertByNumber p (sortByNumber rest)

/-- The failure-notification email built by `_notify_am_failure`. -/
structure NotifyEmail where
  subject : String
  body : String
  inReplyTo : String
  toAddrs : List String
deriving DecidableEq, Repr

/-- Exceptions of the Email→MR path. -/
inductive OpenErr where
  | retry
  | fatalGet (code : Nat)
  | attrNone
  | valueErr
deriving DecidableEq, Repr

/-- The merge request created on the success path. -/
structure CreatedMR where
  iid : Nat
  sourceBranch : String
  targetBranch : String
  title : String
  description : String
  labels : List String
deriving DecidableEq, Repr

/-- External collaborators of `open_merge_request`: the regex engine, the
GitLab project fetch (`none` = success, `some code` = `GitlabGetError`
with that response code), the duplicate-merge-request listing, the git-am
outcome inside `_create_remote_branch`, the new merge request's assigned
iid and commit list (in the order `merge_request.commits()` returns), and
`git rev-parse origin/<branch>` for `_notify_am_failure`. -/
structure OpenEnv where
  search : String → String → Bool
  projectGetStatus : Option Nat
  mrExists : String → Bool
  amOk : Bool
  createIid : Nat
  mrCommits : List String
  upstreamHead : String → String

/-- The observable outcome of one run of `open_merge_request`. -/
structure OpenResult where
  created : Option CreatedMR
  db : List Row
  sent : List NotifyEmail
  err : Option OpenErr
deriving DecidableEq, Repr

/-- The pieces of `GIT_AM_FAILURE` (`src/patchlab/bridge.py` lines 29-43)
around its `{branch_name}`, `{commit}`, `{url}` and `{title}`
placeholders. -/
def gitAmA : String :=
  "\nHello,\n\nWe were unable to apply this patch series to the current development branch.\n" ++
  "The current head of the "

def gitAmB : String := " branch is commit "

def gitAmC : String :=
  ".\n\nPlease rebase this series against the current development branch and resend it\n" ++
  "or, if you prefer never seeing this email again, submit your series as a pull\nrequest:\n\n" ++
  "  1. Create an account and fork "

def gitAmD : String :=
  ".\n  2. git remote add <remote-name> <your-forked-repo>\n" ++
  "  3. git push <remote-name> <branch-name> --push-option=merge_request.create \\\n" ++
  "       --push-option=merge_request.title=\""

def gitAmE : String := "\"\n"

/-- `GIT_AM_FAILURE.format(...)` (`src/patchlab/bridge.py` lines 29-43 and
264-269). -/
def gitAmFailureBody (branchName commit url title : String) : String :=
  gitAmA ++ branchName ++ gitAmB ++ commit ++ gitAmC ++ url ++ gitAmD ++ title ++ gitAmE

/-- `_notify_am_failure` (`src/patchlab/bridge.py` lines 249-276).  It
re-resolves the target branch from `series.patches.first()`; an empty
patch list raises (`None` has no `headers`), and an unmatched first patch
raises the uncaught `ValueError` from `GitForge.branch`. -/
def notifyAmFailure (env : OpenEnv) (forge : Forge) (series : Series) :
    Except OpenErr NotifyEmail :=
  match series.patches.head? with
  | none => .error .attrNone
  | some p0 =>
    match branchResolve env.search forge.branches p0.subjectHeader with
    | .error _ => .error .valueErr
    | .ok targetBranch =>
      let commit := env.upstreamHead targetBranch
      let msgid :=
        match series.coverLetter with
        | some c => c.msgid
        | none => p0.msgid
      .ok { subject := "Re: " ++ series.name
            body := gitAmFailureBody targetBranch commit forge.projectWebUrl series.name
            inReplyTo := msgid
            toAddrs := [series.submitterEmail] }

/-- The description / target-branch resolution of `open_merge_request`
(`src/patchlab/bridge.py` lines 127-138): from the cover letter when
there is one, otherwise from the first patch by `order_by("number")`.
`GitForge.branch`'s `ValueError` is caught by the caller; an empty patch
list raises (`None` has no `content`). -/
def resolveSeriesTarget (env : OpenEnv) (forge : Forge) (series : Series) :
    Except OpenErr (String × String) :=
  match series.coverLetter with
  | some c =>
    match branchResolve env.search forge.branches c.subjectHeader with
    | .ok tb => .ok (c.content, tb)
    | .error _ => .error .valueErr
  | none =>
    match (sortByNumber series.patches).head? with
    | none => .error .attrNone
    | some p =>
      match branchResolve env.search forge.branches p.subjectHeader with
      | .ok tb => .ok (p.content, tb)
      | .error _ => .error .valueErr

/-- `open_merge_request` (`src/patchlab/bridge.py` lines 85-176).
`_create_remote_branch` is summarised by the `amOk` oracle: on git-am
failure it raises `ValueError`, which triggers `_notify_am_failure` and a
silent return; on success the merge request is created and one
`BridgedSubmission` is saved per cover letter and per patch, the patches
ordered by `order_by("number")` and zipped against
`merge_request.commits()`. -/
def openMergeRequest (env : OpenEnv) (db : List Row) (forge : Forge) (series : Series) :
    OpenResult :=
  let branchName := "emails/series-" ++ natStr series.id
  match env.projectGetStatus with
  | some code =>
    if code ≥ 500 then ⟨none, db, [], some .retry⟩
    else ⟨none, db, [], some (.fatalGet code)⟩
  | none =>
    if env.mrExists branchName then ⟨none, db, [], none⟩
    else
      match resolveSeriesTarget env forge series with
      | .error .valueErr => ⟨none, db, [], none⟩
      | .error e => ⟨none, db, [], some e⟩
      | .ok (description, targetBranch) =>
        if !env.amOk then
          match notifyAmFailure env forge series with
          | .error e => ⟨none, db, [], some e⟩
          | .ok mail => ⟨none, db, [mail], none⟩
        else
          let mr : CreatedMR :=
            { iid := env.createIid
              sourceBranch := branchName
              targetBranch := targetBranch
              title := series.name
              description := "```\n" ++ description ++ "\n```"
              labels := ["From email"] }
          let coverRows : List Row :=
            match series.coverLetter with
            | some c =>
              [{ msgid := c.msgid, gitForge := forge.key, mergeRequest := env.createIid,
                 commit := none, seriesVersion := none }]
            | none => []
          let patchRows : List Row :=
            ((sortByNumber series.patches).zip env.mrCommits).map
              (fun pc =>
                { msgid := pc.1.msgid, gitForge := forge.key, mergeRequest := env.createIid,
                  commit := some pc.2, seriesVersion := none })
          ⟨some mr, db ++ coverRows ++ patchRows, [], none⟩

/-! ## Webhook dispatcher (`src/patchlab/views/gitlab.py`) -/

/-- The union of webhook payload fields the three handlers read.
`oldrevPresent` models `"oldrev" in payload["object_attributes"]`. -/
structure Payload where
  action : String
  oldrevPresent : Bool
  projectId : Nat
  oaProjectId : Nat
  projectWebHost : String
  iid : Nat
  pipelineStatus : String
  pipelineSource : String
  mrIid : Nat
  noteableType : String
deriving DecidableEq, Repr

/-- A task enqueued by a webhook handler (`apply_async`). -/
inductive HookTask where
  | mergeRequestHook (host : String) (projectId mergeId : Nat)
  | emailCommentTask (host : String) (projectId : Nat) (mergeId : Option Nat)
deriving DecidableEq, Repr

/-- Django responses the view produces. -/
inductive HttpResponse where
  | ok (msg : String)
  | badRequest (msg : String)
  | forbidden (msg : String)
deriving DecidableEq, Repr

/-- `merge_request` handler (`src/patchlab/views/gitlab.py` lines 54-92). -/
def mergeRequestHandler (p : Payload) : HttpResponse × List HookTask :=
  if p.action ∉ ["open", "reopen", "update"] then
    (.ok "Skipping event as merge request has not been opened or updated", [])
  else if p.action = "update" ∧ ¬p.oldrevPresent then
    (.ok "Skipping event as merge request hook payload is missing \x27oldrev\x27", [])
  else
    (.ok "Success!", [.mergeRequestHook p.projectWebHost p.projectId p.iid])

/-- `pipeline` handler (`src/patchlab/views/gitlab.py` lines 95-125). -/
def pipelineHandler (p : Payload) : HttpResponse × List HookTask :=
  if p.pipelineStatus ≠ "success" then
    (.ok "Skipping event as pipeline was not successful", [])
  else if p.pipelineSource ≠ "merge_request_event" then
    (.ok ("Skipping pipeline as it was caused by " ++ p.pipelineSource), [])
  else
    (.ok "Success!", [.mergeRequestHook p.projectWebHost p.projectId p.mrIid])

/-- `comment` handler (`src/patchlab/views/gitlab.py` lines 128-146). -/
def commentHandler (p : Payload) : HttpResponse × List HookTask :=
  let mergeId : Option Nat := if p.noteableType = "MergeRequest" then some p.mrIid else none
  (.ok "Success!", [.emailCommentTask p.projectWebHost p.oaProjectId mergeId])

/-- An incoming webhook request: the `X-Gitlab-Token` header, the decoded
JSON body (`none` = `json.loads` raised) and the `X-Gitlab-Event`
header. -/
structure WebhookRequest where
  token : Option String
  body : Option Payload
  event : Option String
deriving DecidableEq, Repr

/-- The `WEBHOOKS` dispatch table
(`src/patchlab/views/gitlab.py` lines 159-163). -/
def WEBHOOKS : List (String × (Payload → HttpResponse × List HookTask)) :=
  [("Merge Request Hook", mergeRequestHandler),
   ("Note Hook", commentHandler),
   ("Pipeline Hook", pipelineHandler)]

/-- `web_hook` (`src/patchlab/views/gitlab.py` lines 18-51): token check,
then JSON body decoding, then event dispatch through `WEBHOOKS` (both a
missing `X-Gitlab-Event` header and an unknown event raise the `KeyError`
answered with 400). -/
def webHook (secret : String) (req : WebhookRequest) : HttpResponse × List HookTask :=
  match req.token with
  | none => (.forbidden "Permission denied: missing web hook token", [])
  | some t =>
    if t ≠ secret then (.forbidden "Permission denied: invalid web hook token", [])
    else
      match req.body with
      | none => (.badRequest "JSON body required in POST", [])
      | some payload =>
        match req.event with
        | none => (.badRequest "No web hook handler for request", [])
        | some ev =>
          match WEBHOOKS.find? (fun h => h.1 = ev) with
          | some h => h.2 payload
          | none => (.badRequest "No web hook handler for request", [])

/-! ## Lemmas: newline-freedom of synthesized `Subject` headers -/

/-- `s` contains no raw newline character. -/
def noNl (s : String) : Prop := '\n' ∉ s.data

theorem noNl_append {a b : String} (ha : noNl a) (hb : noNl b) : noNl (a ++ b) := by
  intro h
  rw [String.data_append, List.mem_append] at h
  exact h.elim ha hb

theorem decDigitChar_ne_nl (d : Nat) : decDigitChar d ≠ '\n' := by
  unfold decDigitChar
  repeat' split
  all_goals decide

theorem natCharsAux_ne_nl : ∀ (fuel n : Nat), ∀ c ∈ natCharsAux fuel n, c ≠ '\n' := by
  intro fuel
  induction fuel with
  | zero => intro n c hc; simp [natCharsAux] at hc
  | succ f ih =>
    intro n c hc
    rw [natCharsAux] at hc
    split at hc
    · rw [List.mem_singleton] at hc
      exact hc ▸ decDigitChar_ne_nl n
    · rcases List.mem_append.mp hc with h | h
      · exact ih _ c h
      · rw [List.mem_singleton] at h
        exact h ▸ decDigitChar_ne_nl _

theorem natChars_ne_nl (n : Nat) : ∀ c ∈ natChars n, c ≠ '\n' :=
  natCharsAux_ne_nl (n + 1) n

theorem noNl_natStr (n : Nat) : noNl (natStr n) := by
  intro h
  exact natChars_ne_nl n '\n' h rfl

theorem noNl_intStr (n : Int) : noNl (intStr n) := by
  unfold intStr
  split
  · exact noNl_append (show '\n' ∉ ("-" : String).data by decide) (noNl_natStr _)
  · exact noNl_natStr _

theorem pySplitlinesAux_no_break (cs acc : List Char) :
    (∀ c ∈ acc, pyIsLinebreak c = false) →
    ∀ l ∈ pySplitlinesAux cs acc, ∀ c ∈ l, pyIsLinebreak c = false := by
  induction cs, acc using pySplitlinesAux.induct with
  | case1 acc =>
    intro hacc l hl c hc
    rw [pySplitlinesAux, List.mem_singleton] at hl
    subst hl
    exact hacc c (List.mem_reverse.mp hc)
  | case2 c acc hbreak =>
    intro hacc l hl c' hc'
    rw [pySplitlinesAux, if_pos hbreak] at hl
    simp only [List.mem_singleton] at hl
    subst hl
    exact hacc c' (List.mem_reverse.mp hc')
  | case3 c acc hbreak head hcrlf =>
    intro hacc l hl c' hc'
    rw [pySplitlinesAux, if_pos hbreak, if_pos hcrlf] at hl
    simp only [List.mem_singleton] at hl
    subst hl
    exact hacc c' (List.mem_reverse.mp hc')
  | case4 c acc hbreak head hcrlf head1 tail ih =>
    intro hacc l hl c' hc'
    rw [pySplitlinesAux.eq_def] at hl
    simp only [] at hl
    rw [if_pos hbreak, if_pos hcrlf] at hl
    rcases List.mem_cons.mp hl with hl | hl
    · subst hl
      exact hacc c' (List.mem_reverse.mp hc')
    · exact ih (by intro x hx; simp at hx) l hl c' hc'
  | case5 c acc hbreak head tail hcrlf ih =>
    intro hacc l hl c' hc'
    rw [pySplitlinesAux.eq_def] at hl
    simp only [] at hl
    rw [if_pos hbreak, if_neg hcrlf] at hl
    rcases List.mem_cons.mp hl with hl | hl
    · subst hl
      exact hacc c' (List.mem_reverse.mp hc')
    · exact ih (by intro x hx; simp at hx) l hl c' hc'
  | case6 c rest acc hbreak ih =>
    intro hacc l hl c' hc'
    rw [pySplitlinesAux.eq_def] at hl
    simp only [] at hl
    rw [if_neg hbreak] at hl
    refine ih ?_ l hl c' hc'
    intro x hx
    rcases List.mem_cons.mp hx with h | h
    · exact h ▸ Bool.eq_false_iff.mpr hbreak
    · exact hacc x h

theorem pySplitlines_no_break (cs : List Char) :
    ∀ l ∈ pySplitlines cs, ∀ c ∈ l, pyIsLinebreak c = false := by
  unfold pySplitlines
  match cs with
  | [] => simp
  | c :: rest => exact pySplitlinesAux_no_break _ _ (by simp)

theorem mem_joinSpace (ls : List (List Char)) (c : Char) (hc : c ∈ joinSpace ls) :
    c = ' ' ∨ ∃ l ∈ ls, c ∈ l := by
  induction ls using joinSpace.induct with
  | case1 => rw [joinSpace] at hc; simp at hc
  | case2 l =>
    rw [joinSpace] at hc
    exact Or.inr ⟨l, List.mem_singleton.mpr rfl, hc⟩
  | case3 l l' rest ih =>
    rw [joinSpace, List.mem_append] at hc
    rcases hc with h | h
    · exact Or.inr ⟨l, List.mem_cons_self _ _, h⟩
    · rcases List.mem_cons.mp h with h | h
      · exact Or.inl h
      · rcases ih h with h | ⟨l₀, hl₀, hcl₀⟩
        · exact Or.inl h
        · exact Or.inr ⟨l₀, List.mem_cons_of_mem _ hl₀, hcl₀⟩

theorem noNl_sanitizeTitle (s : String) : noNl (sanitizeTitle s) := by
  intro h
  rcases mem_joinSpace (pySplitlines s.data) _ h with h | ⟨l, hl, hcl⟩
  · exact absurd h (by decide)
  · exact absurd (pySplitlines_no_break s.data l hl _ hcl) (by decide)

instance (s : String) : Decidable (noNl s) :=
  inferInstanceAs (Decidable ('\n' ∉ s.data))

theorem noNl_versionTag (v : Int) : noNl (if v > 1 then "v" ++ intStr v else "") := by
  split
  · exact noNl_append (by decide) (noNl_intStr v)
  · decide

theorem noNl_patchNum (i n : Nat) :
    noNl (if n = 1 then "" else " " ++ natStr i ++ "/" ++ natStr n) := by
  split
  · decide
  · exact noNl_append
      (noNl_append (noNl_append (by decide) (noNl_natStr i)) (by decide))
      (noNl_natStr n)

theorem noNl_patchSubject (tag vt pn title : String)
    (htag : noNl tag) (hv : noNl vt) (hpn : noNl pn) :
    noNl ("[" ++ tag ++ " PATCH" ++ vt ++ pn ++ "] " ++ sanitizeTitle title) :=
  noNl_append
    (noNl_append
      (noNl_append
        (noNl_append
          (noNl_append (noNl_append (by decide) htag) (by decide))
          hv)
        hpn)
      (by decide))
    (noNl_sanitizeTitle title)

theorem noNl_coverSubject (tag vt title : String) (n : Nat)
    (htag : noNl tag) (hv : noNl vt) :
    noNl ("[" ++ tag ++ " PATCH" ++ vt ++ " 0/" ++ natStr n ++ "] " ++ sanitizeTitle title) :=
  noNl_append
    (noNl_append
      (noNl_append
        (noNl_append
          (noNl_append
            (noNl_append (noNl_append (by decide) htag) (by decide))
            hv)
          (by decide))
        (noNl_natStr n))
      (by decide))
    (noNl_sanitizeTitle title)

theorem patchLoop_subject_noNl
    (env : Env) (branch : BranchRow) (fromEmail listemail mrUrl : String)
    (seriesVersion : Int) (versionTag : String) (inReplyTo : Option String)
    (numCommits : Nat) (mrCcList : List String)
    (htag : noNl branch.subjectTag) (hv : noNl versionTag) :
    ∀ (commits : List Commit) (i k : Nat) (emails : List Email),
      (∀ e ∈ emails, noNl e.subject) →
      ∀ e ∈ patchLoop env branch fromEmail listemail mrUrl seriesVersion versionTag
          inReplyTo numCommits mrCcList commits i k emails, noNl e.subject := by
  intro commits
  induction commits with
  | nil =>
    intro i k emails hemails e he
    rw [patchLoop] at he
    exact hemails e he
  | cons c rest ih =>
    intro i k emails hemails e he
    simp only [patchLoop] at he
    refine ih _ _ _ ?_ e he
    intro e' he'
    rcases List.mem_append.mp he' with h | h
    · revert h
      split
      · match emails, hemails with
        | [], _ => intro h; simp at h
        | e0 :: es, hemails =>
          intro h
          rcases List.mem_cons.mp h with h | h
          · subst h
            exact hemails e0 (List.mem_cons_self _ _)
          · exact hemails e' (List.mem_cons_of_mem _ h)
      · intro h
        exact hemails e' h
    · rw [List.mem_singleton] at h
      subst h
      exact noNl_patchSubject _ _ _ _ htag hv (noNl_patchNum i numCommits)

/-- C5: every `Subject` header synthesized by `_prepare_emails` is a single
physical line, provided the configured branch subject tags are. -/
theorem prepareEmails_subjects_single_line
    (env : Env) (S : Settings) (db : List Row) (forge : Forge)
    (project : GlProject) (mr : MergeRequest)
    (hpre : ∀ b ∈ forge.branches, noNl b.subjectTag) :
    ∀ e ∈ prepareEmails env S db forge project mr, noNl e.subject := by
  intro e he
  unfold prepareEmails at he
  rcases hfind : forge.branches.find? (fun b => b.name = mr.targetBranch) with _ | branch
  · rw [hfind] at he
    simp at he
  · rw [hfind] at he
    have htag := hpre branch (List.mem_of_find?_eq_some hfind)
    simp only at he
    split at he
    · split at he
      · rw [List.mem_singleton] at he
        subst he
        exact noNl_coverSubject _ _ _ _ htag (noNl_versionTag _)
      · refine patchLoop_subject_noNl env branch _ _ _ _ _ _ _ _ htag (noNl_versionTag _)
          _ _ _ _ ?_ e he
        intro e0 h0
        rw [List.mem_singleton] at h0
        subst h0
        exact noNl_coverSubject _ _ _ _ htag (noNl_versionTag _)
    · refine patchLoop_subject_noNl env branch _ _ _ _ _ _ _ _ htag (noNl_versionTag _)
        _ _ _ _ ?_ e he
      intro e0 h0
      simp at h0

/-! ## Lemmas: reroll versioning -/

theorem versionLt_irrefl (a : Option Int) : versionLt a a = false := by
  cases a <;> simp [versionLt]

theorem versionLt_asymm {a b : Option Int} (h : versionLt a b = true) :
    versionLt b a = false := by
  cases a <;> cases b <;> simp_all [versionLt] <;> omega

theorem versionLt_false_trans {a b c : Option Int}
    (hab : versionLt a b = false) (hbc : versionLt b c = false) :
    versionLt a c = false := by
  cases a <;> cases b <;> cases c <;> simp_all [versionLt] <;> omega

theorem latestBy_cons (r : Row) (rest : List Row) :
    latestBy (r :: rest) =
      match latestBy rest with
      | none => some r
      | some l => if versionLt r.seriesVersion l.seriesVersion then some l else some r := by
  rw [latestBy]

theorem latestBy_none {rows : List Row} (h : latestBy rows = none) : rows = [] := by
  cases rows with
  | nil => rfl
  | cons r rest =>
    exfalso
    cases hl : latestBy rest with
    | none =>
      rw [latestBy_cons, hl] at h
      exact Option.noConfusion h
    | some l =>
      rw [latestBy_cons, hl] at h
      simp only [] at h
      by_cases hc : versionLt r.seriesVersion l.seriesVersion = true
      · rw [if_pos hc] at h
        exact Option.noConfusion h
      · rw [if_neg hc] at h
        exact Option.noConfusion h

theorem latestBy_mem : ∀ {rows : List Row} {l : Row}, latestBy rows = some l → l ∈ rows := by
  intro rows
  induction rows with
  | nil => intro l h; exact absurd h (by simp [latestBy])
  | cons r rest ih =>
    intro l h
    cases hl : latestBy rest with
    | none =>
      rw [latestBy_cons, hl] at h
      injection h with h
      exact h ▸ List.mem_cons_self _ _
    | some l' =>
      rw [latestBy_cons, hl] at h
      simp only [] at h
      by_cases hc : versionLt r.seriesVersion l'.seriesVersion = true
      · rw [if_pos hc] at h
        injection h with h
        exact List.mem_cons_of_mem _ (h ▸ ih hl)
      · rw [if_neg hc] at h
        injection h with h
        exact h ▸ List.mem_cons_self _ _

theorem latestBy_max : ∀ {rows : List Row} {l : Row}, latestBy rows = some l →
    ∀ r ∈ rows, versionLt l.seriesVersion r.seriesVersion = false := by
  intro rows
  induction rows with
  | nil => intro l h; exact absurd h (by simp [latestBy])
  | cons r0 rest ih =>
    intro l h r hr
    cases hl : latestBy rest with
    | none =>
      have hrest := latestBy_none hl
      subst hrest
      rw [latestBy_cons, hl] at h
      injection h with h
      subst h
      have := List.mem_singleton.mp hr
      subst this
      exact versionLt_irrefl _
    | some l' =>
      rw [latestBy_cons, hl] at h
      simp only [] at h
      by_cases hc : versionLt r0.seriesVersion l'.seriesVersion = true
      · rw [if_pos hc] at h
        injection h with h
        subst h
        rcases List.mem_cons.mp hr with h | h
        · subst h
          exact versionLt_asymm hc
        · exact ih hl r h
      · rw [if_neg hc] at h
        injection h with h
        subst h
        rcases List.mem_cons.mp hr with h | h
        · subst h
          exact versionLt_irrefl _
        · exact versionLt_false_trans (Bool.eq_false_iff.mpr hc) (ih hl r h)

/-- C2 (amended): `_reroll`'s exact behavior.  The latest prior submission
is a maximum of the (forge, merge-request) filter; a positive latest
version `N` yields version `N + 1` replying to that submission; an absent
latest yields `(1, none)`; a `NULL` (or `0`) latest version yields version
`1` — not `2` — still replying to that submission. -/
theorem reroll_amended (db : List Row) (fk iid : Nat) :
    (latestBy (priorSubmissions db fk iid) = none → reroll db fk iid = (1, none)) ∧
    (∀ l, latestBy (priorSubmissions db fk iid) = some l →
      l ∈ priorSubmissions db fk iid ∧
      (∀ r ∈ priorSubmissions db fk iid,
        versionLt l.seriesVersion r.seriesVersion = false) ∧
      (∀ N : Int, l.seriesVersion = some N → N ≠ 0 →
        reroll db fk iid = (N + 1, some l.msgid)) ∧
      (l.seriesVersion = none ∨ l.seriesVersion = some 0 →
        reroll db fk iid = (1, some l.msgid))) := by
  constructor
  · intro h
    unfold reroll
    rw [h]
  · intro l hl
    refine ⟨latestBy_mem hl, latestBy_max hl, ?_, ?_⟩
    · intro N hN hN0
      unfold reroll
      rw [hl]
      simp only [] 
      rw [hN]
      simp only [] 
      rw [if_pos hN0]
    · intro hN
      unfold reroll
      rw [hl]
      simp only [] 
      rcases hN with hN | hN
      · rw [hN]
      · rw [hN]
        simp only [] 
        rw [if_neg (by omega)]

/-! ## Concrete fixtures used by witnesses and counterexamples -/

/-- A concrete environment: the regex oracle is literal head-of-string
search, addresses parse to themselves and all pass the Cc filter, wrapping
is the identity, and message ids are drawn from a counter. -/
def env0 : Env :=
  { search := fun pat subj => pat.data.isPrefixOf subj.data
    ccAllowed := fun _ => true
    parseAddr := fun s => s
    fill := fun s => s
    msgidGen := fun k => "<mid" ++ natStr k ++ ">"
    now := "now"
    fromFmt := fun u => "Bridge on behalf of " ++ u
    patchFrom := fun cid => "Author of " ++ cid
    patchPayload := fun cid => "patch body " ++ cid
    sendOk := fun _ => true
    subjectFilteredOut := fun _ => false }

def forge0 : Forge :=
  { key := 7, host := "gitlab.example.com", forgeId := 42
    listemail := "list@example.com", listid := "list.example.com"
    projectWebUrl := "https://forge/project"
    branches := [⟨"master", "TEST", "PATCH"⟩] }

def S0 : Settings :=
  { pipelineSuccessRequired := false, pipelineMaxWait := 120
    maxEmails := 25, ignoreLabels := [] }

def proj0 : GlProject := ⟨"https://forge/project"⟩

/-- A bridgeable one-commit merge request whose titles span two lines. -/
def mr0 : MergeRequest :=
  { iid := 5, sha := "headsha", workInProgress := false
    mergeStatus := "can_be_merged", headPipeline := none, labels := []
    targetBranch := "master", title := "t1\nt2", description := some "desc"
    authorUsername := "alice", webUrl := "https://forge/mr/5"
    commitsApi := [⟨"c1", "ct1\nct2", "msg", "a@x"⟩] }

/-- The same merge request with two commits (API order: newest first). -/
def mr2 : MergeRequest :=
  { mr0 with commitsApi := [⟨"c2", "second", "m2", "b@x"⟩, ⟨"c1", "first", "m1", "a@x"⟩] }

/-- A ledger row recording that `mr0`'s head sha was already bridged. -/
def rowBridged : Row :=
  { msgid := "old", gitForge := 7, mergeRequest := 5
    commit := some "headsha", seriesVersion := some 1 }

/-- A prior bridged submission whose `series_version` is `NULL`. -/
def rowNullVersion : Row :=
  { msgid := "m1", gitForge := 7, mergeRequest := 5, commit := none, seriesVersion := none }

/-- A prior bridged submission with `series_version` 3. -/
def rowV3 : Row :=
  { msgid := "m3", gitForge := 1, mergeRequest := 1, commit := none, seriesVersion := some 3 }

/-- C2 counterexample: one prior `BridgedSubmission` with a `NULL`
`series_version`.  The claim treats it as version 1 and so requires the
next version to be `1 + 1 = 2`; `_reroll` instead restarts at version 1
(while still threading to the prior submission). -/
theorem reroll_counterexample :
    reroll [rowNullVersion] 7 5 = (1, some "m1") ∧
    reroll [rowNullVersion] 7 5 ≠ (2, some "m1") := by
  constructor
  · decide
  · decide

/-- Witness for `reroll_amended` at concrete inputs. -/
theorem reroll_amended_witness :
    reroll [rowV3] 1 1 = (4, some "m3") ∧ reroll ([] : List Row) 1 1 = (1, none) := by
  constructor
  · have h := (reroll_amended [rowV3] 1 1).2 rowV3 (by decide)
    have := h.2.2.1 3 rfl (by decide)
    simpa using this
  · exact (reroll_amended [] 1 1).1 (by decide)

/-- C7: `GitForge.branch` returns the name of the first configured branch
whose regex finds a match in the submission's `Subject` header, and raises
exactly when no branch matches; as a function of the branch list and the
subject it is deterministic. -/
theorem branchResolve_first_match (search : String → String → Bool)
    (bs : List BranchRow) (subj : String) :
    branchResolve search bs subj =
      (bs.find? (fun b => search b.subjectMatch subj)).elim
        (Except.error "No branch matches") (fun b => Except.ok b.name) ∧
    (branchResolve search bs subj = Except.error "No branch matches" ↔
      ∀ b ∈ bs, search b.subjectMatch subj = false) := by
  have heq : branchResolve search bs subj =
      (bs.find? (fun b => search b.subjectMatch subj)).elim
        (Except.error "No branch matches") (fun b => Except.ok b.name) := by
    induction bs with
    | nil => rfl
    | cons b rest ih =>
      rw [branchResolve, List.find?_cons]
      cases hc : search b.subjectMatch subj
      · simp only [Bool.false_eq_true, if_false]
        exact ih
      · simp only [if_true]
        rfl
  refine ⟨heq, ?_⟩
  rw [heq]
  cases hf : bs.find? (fun b => search b.subjectMatch subj) with
  | none =>
    simp only [Option.elim]
    constructor
    · intro _ b hb
      have := List.find?_eq_none.mp hf b hb
      simpa using this
    · intro _
      trivial
  | some b =>
    simp only [Option.elim]
    constructor
    · intro h
      exact absurd h (by simp)
    · intro hall
      have hb := List.find?_some hf
      have := hall b (List.mem_of_find?_eq_some hf)
      rw [this] at hb
      exact absurd hb (by simp)

/-- Witness for `branchResolve_first_match` at a concrete configuration. -/
theorem branchResolve_witness :
    branchResolve env0.search forge0.branches "PATCH hello" = Except.ok "master" := by
  have h := (branchResolve_first_match env0.search forge0.branches "PATCH hello").1
  rw [h]
  rfl

/-- A concrete merge-request webhook payload. -/
def pay0 : Payload :=
  { action := "open", oldrevPresent := false, projectId := 42, oaProjectId := 42
    projectWebHost := "gitlab.example.com", iid := 5, pipelineStatus := "success"
    pipelineSource := "merge_request_event", mrIid := 5, noteableType := "MergeRequest" }

/-- C9: the webhook responds 403 without enqueuing any task when the
`X-Gitlab-Token` header is missing or differs from the configured secret —
regardless of the body or event header, so the token check precedes body
parsing and dispatch; with a valid token, a malformed JSON body answers
400, and a missing or unknown `X-Gitlab-Event` header (the known handlers
being `Merge Request Hook`, `Note Hook`, `Pipeline Hook`) answers 400. -/
theorem webHook_responses (secret t : String) (body : Option Payload)
    (event : Option String) (p : Payload) (ev : String) :
    webHook secret ⟨none, body, event⟩ =
      (.forbidden "Permission denied: missing web hook token", []) ∧
    (t ≠ secret → webHook secret ⟨some t, body, event⟩ =
      (.forbidden "Permission denied: invalid web hook token", [])) ∧
    webHook secret ⟨some secret, none, event⟩ =
      (.badRequest "JSON body required in POST", []) ∧
    webHook secret ⟨some secret, some p, none⟩ =
      (.badRequest "No web hook handler for request", []) ∧
    (ev ∉ ["Merge Request Hook", "Note Hook", "Pipeline Hook"] →
      webHook secret ⟨some secret, some p, some ev⟩ =
        (.badRequest "No web hook handler for request", [])) := by
  refine ⟨rfl, ?_, ?_, ?_, ?_⟩
  · intro h
    simp only [webHook]
    rw [if_pos h]
  · simp only [webHook]
    rw [if_neg (by simp)]
  · simp only [webHook]
    rw [if_neg (by simp)]
  · intro h
    simp only [List.mem_cons, List.mem_singleton] at h
    push_neg at h
    obtain ⟨h1, h2, h3⟩ := h
    simp only [webHook, WEBHOOKS]
    rw [if_neg (by simp)]
    simp only [List.find?]
    rw [decide_eq_false (by simpa using Ne.symm h1)]
    rw [decide_eq_false (by simpa using Ne.symm h2)]
    rw [decide_eq_false (by simpa using Ne.symm h3.1)]

/-- Witness for `webHook_responses` at concrete requests. -/
theorem webHook_responses_witness :
    webHook "sec" ⟨none, some pay0, some "Merge Request Hook"⟩ =
      (.forbidden "Permission denied: missing web hook token", []) ∧
    webHook "sec" ⟨some "bad", some pay0, some "Merge Request Hook"⟩ =
      (.forbidden "Permission denied: invalid web hook token", []) ∧
    webHook "sec" ⟨some "sec", none, some "Merge Request Hook"⟩ =
      (.badRequest "JSON body required in POST", []) ∧
    webHook "sec" ⟨some "sec", some pay0, none⟩ =
      (.badRequest "No web hook handler for request", []) ∧
    webHook "sec" ⟨some "sec", some pay0, some "Bogus Hook"⟩ =
      (.badRequest "No web hook handler for request", []) := by
  have h := webHook_responses "sec" "bad" (some pay0) (some "Merge Request Hook") pay0 "Bogus Hook"
  exact ⟨h.1, h.2.1 (by decide), h.2.2.1, h.2.2.2.1, h.2.2.2.2 (by decide)⟩

/-- A concrete `open_merge_request` environment: two pushed commits, the
API listing them newest first. -/
def oenv0 : OpenEnv :=
  { search := fun pat subj => pat.data.isPrefixOf subj.data
    projectGetStatus := none
    mrExists := fun _ => false
    amOk := true
    createIid := 9
    mrCommits := ["c2", "c1"]
    upstreamHead := fun b => "head-of-" ++ b }

/-- A cover-less two-patch series whose patch subjects match `forge0`'s
branch regex. -/
def series2 : Series :=
  { id := 3, name := "My series", submitterEmail := "dev@example.com"
    coverLetter := none
    patches := [⟨1, "pm1", "PATCH 1/2 one", "content1"⟩,
                ⟨2, "pm2", "PATCH 2/2 two", "content2"⟩] }

/-- A series whose cover letter matches `forge0`'s branch regex but whose
single patch does not. -/
def seriesCov : Series :=
  { id := 4, name := "Cover series", submitterEmail := "dev@example.com"
    coverLetter := some ⟨"cm", "PATCH 0/1 cover", "cover content"⟩
    patches := [⟨1, "px1", "unmatched subject", "content1"⟩] }

/-! ## Lemmas: idempotent re-delivery -/

theorem ignoreCheck_bridged (S : Settings) (db : List Row) (forge : Forge)
    (mr : MergeRequest)
    (h : db.any (fun r => r.gitForge = forge.key && r.mergeRequest = mr.iid &&
        r.commit = some mr.sha) = true) :
    ignoreCheck S db forge mr ≠ Except.ok false := by
  intro hc
  unfold ignoreCheck at hc
  repeat' split at hc
  all_goals simp_all

/-- C1: re-delivery is a no-op in both directions.  (a) When a
`BridgedSubmission` already records this (forge, merge-request iid, head
sha) triple, `email_merge_request` sends no email and adds no ledger row
(whether it skips via `_ignore` or raises on a missing pipeline).  (b)
When a merge request in any state already exists for the series' derived
branch `emails/series-<id>`, `open_merge_request` creates no merge request
and no ledger row. -/
theorem redelivery_noop :
    (∀ (S : Settings) (env : Env) (db : List Row) (store : List String)
       (forge : Forge) (project : GlProject) (mr : MergeRequest),
      (∃ r ∈ db, r.gitForge = forge.key ∧ r.mergeRequest = mr.iid ∧
        r.commit = some mr.sha) →
      (emailMergeRequest S env db store forge project mr).sent = [] ∧
      (emailMergeRequest S env db store forge project mr).db = db) ∧
    (∀ (oenv : OpenEnv) (db : List Row) (forge : Forge) (series : Series),
      oenv.mrExists ("emails/series-" ++ natStr series.id) = true →
      (openMergeRequest oenv db forge series).created = none ∧
      (openMergeRequest oenv db forge series).db = db) := by
  constructor
  · intro S env db store forge project mr h
    have hany : db.any (fun r => r.gitForge = forge.key && r.mergeRequest = mr.iid &&
        r.commit = some mr.sha) = true := by
      rcases h with ⟨r, hr, h1, h2, h3⟩
      exact List.any_eq_true.mpr ⟨r, hr, by simp [h1, h2, h3]⟩
    cases hic : ignoreCheck S db forge mr with
    | error e =>
      unfold emailMergeRequest
      rw [hic]
      exact ⟨rfl, rfl⟩
    | ok b =>
      cases b with
      | true =>
        unfold emailMergeRequest
        rw [hic]
        exact ⟨rfl, rfl⟩
      | false => exact absurd hic (ignoreCheck_bridged S db forge mr hany)
  · intro oenv db forge series h
    unfold openMergeRequest
    cases hs : oenv.projectGetStatus with
    | some code =>
      simp only []
      split
      · exact ⟨rfl, rfl⟩
      · exact ⟨rfl, rfl⟩
    | none =>
      simp only []
      rw [if_pos h]
      exact ⟨rfl, rfl⟩

/-- Witness for `redelivery_noop` at concrete states. -/
theorem redelivery_noop_witness :
    (emailMergeRequest S0 env0 [rowBridged] [] forge0 proj0 mr0).sent = [] ∧
    (emailMergeRequest S0 env0 [rowBridged] [] forge0 proj0 mr0).db = [rowBridged] ∧
    (openMergeRequest { oenv0 with mrExists := fun b => b = "emails/series-3" }
      [] forge0 series2).created = none ∧
    (openMergeRequest { oenv0 with mrExists := fun b => b = "emails/series-3" }
      [] forge0 series2).db = [] := by
  have ha := (redelivery_noop.1) S0 env0 [rowBridged] [] forge0 proj0 mr0
    ⟨rowBridged, by decide, by decide, by decide, by decide⟩
  have hb := (redelivery_noop.2) { oenv0 with mrExists := fun b => b = "emails/series-3" }
    [] forge0 series2 (by decide)
  exact ⟨ha.1, ha.2, hb.1, hb.2⟩

/-! ## Lemmas: send-failure cleanup -/

theorem sendLoop_no_smtp_of_mem (env : Env) (fk mid : Nat) (m : String) :
    ∀ (emails : List Email) (store : List String) (db : List Row), m ∈ store →
      (sendLoop env fk mid emails store db).err ≠ some (PyErr.smtpFail m) := by
  intro emails
  induction emails with
  | nil => intro store db hm hc; rw [sendLoop] at hc; simp at hc
  | cons e rest ih =>
    intro store db hm hc
    rw [sendLoop] at hc
    by_cases h1 : e.msgid ∈ store
    · rw [if_pos h1] at hc
      exact ih _ _ hm hc
    · rw [if_neg h1] at hc
      by_cases h2 : env.subjectFilteredOut e.msgid = true
      · rw [if_pos h2] at hc
        simp at hc
      · rw [if_neg h2] at hc
        by_cases h3 : env.sendOk e.msgid = true
        · rw [if_pos h3] at hc
          simp only [] at hc
          exact ih _ _ (List.mem_append.mpr (Or.inl hm)) hc
        · rw [if_neg h3] at hc
          simp only [] at hc
          injection hc with hc
          injection hc with hc
          exact h1 (hc ▸ hm)

theorem sendLoop_smtp_deletes (env : Env) (fk mid : Nat) (m : String) :
    ∀ (emails : List Email) (store : List String) (db : List Row),
      (sendLoop env fk mid emails store db).err = some (PyErr.smtpFail m) →
      m ∉ db.map Row.msgid →
      m ∉ (sendLoop env fk mid emails store db).db.map Row.msgid := by
  intro emails
  induction emails with
  | nil => intro store db hc; rw [sendLoop] at hc; simp at hc
  | cons e rest ih =>
    intro store db hc hdb
    rw [sendLoop] at hc ⊢
    by_cases h1 : e.msgid ∈ store
    · rw [if_pos h1] at hc ⊢
      exact ih _ _ hc hdb
    · rw [if_neg h1] at hc ⊢
      by_cases h2 : env.subjectFilteredOut e.msgid = true
      · rw [if_pos h2] at hc ⊢
        simp at hc
      · rw [if_neg h2] at hc ⊢
        by_cases h3 : env.sendOk e.msgid = true
        · rw [if_pos h3] at hc ⊢
          simp only [] at hc ⊢
          by_cases h4 : e.msgid = m
          · exact absurd hc (sendLoop_no_smtp_of_mem env fk mid m rest _ _
              (List.mem_append.mpr (Or.inr (h4 ▸ List.mem_singleton.mpr rfl))))
          · refine ih _ _ hc ?_
            intro hmem
            rw [List.map_append, List.mem_append] at hmem
            rcases hmem with hmem | hmem
            · exact hdb hmem
            · simp [recordRow] at hmem
              exact h4 hmem.symm
        · rw [if_neg h3] at hc ⊢
          simp only [] at hc ⊢
          injection hc with hc
          injection hc with hc
          intro hmem
          rcases List.mem_map.mp hmem with ⟨r, hr, hrm⟩
          have hne := List.of_mem_filter hr
          rw [hc] at hne
          simp at hne
          exact hne (hrm)

/-- `email_merge_request` either stops early with an unchanged state or
runs the send loop on the prepared emails. -/
theorem emailMergeRequest_cases (S : Settings) (env : Env) (db : List Row)
    (store : List String) (forge : Forge) (project : GlProject) (mr : MergeRequest) :
    emailMergeRequest S env db store forge project mr = ⟨[], db, store, none⟩ ∨
    (∃ e, emailMergeRequest S env db store forge project mr = ⟨[], db, store, some e⟩) ∨
    emailMergeRequest S env db store forge project mr =
      sendLoop env forge.key mr.iid (prepareEmails env S db forge project mr) store db := by
  unfold emailMergeRequest
  cases ignoreCheck S db forge mr with
  | error e => exact Or.inr (Or.inl ⟨e, rfl⟩)
  | ok b =>
    cases b with
    | true => exact Or.inl rfl
    | false =>
      cases pipelineGate S mr with
      | error e => exact Or.inr (Or.inl ⟨e, rfl⟩)
      | ok g =>
        cases g with
        | false => exact Or.inl rfl
        | true => exact Or.inr (Or.inr rfl)

/-- C3: when the SMTP send of an email whose `BridgedSubmission` row was
just created by `_record_bridging` fails, `email_merge_request` deletes
that row before re-raising, so after the failed run no ledger row exists
for that message id (given the id was not previously in the ledger; the
error surfacing as `smtpFail m` is exactly the re-raised send failure of
the email recorded under `m`). -/
theorem emailMergeRequest_smtp_failure_deletes_row
    (S : Settings) (env : Env) (db : List Row) (store : List String)
    (forge : Forge) (project : GlProject) (mr : MergeRequest) (m : String)
    (hfresh : m ∉ db.map Row.msgid)
    (herr : (emailMergeRequest S env db store forge project mr).err =
      some (PyErr.smtpFail m)) :
    (emailMergeRequest S env db store forge project mr).err ≠ none ∧
    m ∉ (emailMergeRequest S env db store forge project mr).db.map Row.msgid := by
  refine ⟨by rw [herr]; simp, ?_⟩
  rcases emailMergeRequest_cases S env db store forge project mr with h | ⟨e, h⟩ | h
  · rw [h]
    exact hfresh
  · rw [h]
    exact hfresh
  · rw [h] at herr ⊢
    exact sendLoop_smtp_deletes env forge.key mr.iid m _ _ _ herr hfresh

/-- Witness for `emailMergeRequest_smtp_failure_deletes_row`: a concrete
run whose only email fails to send. -/
theorem smtp_failure_witness :
    (emailMergeRequest S0 { env0 with sendOk := fun _ => false } [] [] forge0 proj0 mr0).err
      ≠ none ∧
    "<mid0>" ∉ (emailMergeRequest S0 { env0 with sendOk := fun _ => false }
      [] [] forge0 proj0 mr0).db.map Row.msgid :=
  emailMergeRequest_smtp_failure_deletes_row S0 { env0 with sendOk := fun _ => false }
    [] [] forge0 proj0 mr0 "<mid0>" (by decide) (by decide)

/-- `PATCHLAB_PIPELINE_SUCCESS_REQUIRED` turned on. -/
def Sreq : Settings := { S0 with pipelineSuccessRequired := true }

/-- A work-in-progress merge request with no head pipeline. -/
def mrWip : MergeRequest := { mr0 with workInProgress := true }

/-- C10 (amended): with the pipeline-success setting off, the run never
reads the head pipeline — a merge request with an absent pipeline behaves
exactly like one with any pipeline; with the setting on, any merge request
that passes the earlier `_ignore` short-circuits (not work-in-progress and
not unmergeable) but has no head pipeline makes both the eligibility check
and the whole operation raise `None["status"]` rather than skip. -/
theorem pipeline_setting_behavior
    (S : Settings) (env : Env) (db : List Row) (store : List String)
    (forge : Forge) (project : GlProject) (mr : MergeRequest) (p : Option String) :
    (S.pipelineSuccessRequired = false →
      emailMergeRequest S env db store forge project {mr with headPipeline := none} =
      emailMergeRequest S env db store forge project {mr with headPipeline := p}) ∧
    (S.pipelineSuccessRequired = true → mr.headPipeline = none →
      mr.workInProgress = false → mr.mergeStatus ≠ "cannot_be_merged" →
      ignoreCheck S db forge mr = Except.error PyErr.noneSubscript ∧
      emailMergeRequest S env db store forge project mr =
        ⟨[], db, store, some PyErr.noneSubscript⟩) := by
  constructor
  · intro h
    obtain ⟨req, wait, maxE, ign⟩ := S
    simp only at h
    subst h
    obtain ⟨iid, sha, wip, ms, hp0, lab, tb, ti, de, au, wu, ca⟩ := mr
    rfl
  · intro hreq hp hwip hms
    have hig : ignoreCheck S db forge mr = Except.error PyErr.noneSubscript := by
      unfold ignoreCheck
      rw [if_neg (show ¬mr.workInProgress = true by simp [hwip]), if_neg hms,
        if_pos hreq, hp]
    refine ⟨hig, ?_⟩
    unfold emailMergeRequest
    rw [hig]

/-- C10 counterexample: a work-in-progress merge request with an absent
head pipeline, with the setting enabled, is skipped without any error —
the claim's "for every merge request whose head pipeline is absent the
operation raises" fails. -/
theorem pipeline_absent_counterexample :
    Sreq.pipelineSuccessRequired = true ∧
    mrWip.headPipeline = none ∧
    (emailMergeRequest Sreq env0 [] [] forge0 proj0 mrWip).err = none ∧
    (emailMergeRequest Sreq env0 [] [] forge0 proj0 mrWip).sent = [] := by
  decide

/-- Witness for `pipeline_setting_behavior` at concrete states. -/
theorem pipeline_setting_witness :
    emailMergeRequest S0 env0 [] [] forge0 proj0 {mr0 with headPipeline := none} =
      emailMergeRequest S0 env0 [] [] forge0 proj0 {mr0 with headPipeline := some "failed"} ∧
    ignoreCheck Sreq [] forge0 mr0 = Except.error PyErr.noneSubscript ∧
    emailMergeRequest Sreq env0 [] [] forge0 proj0 mr0 =
      ⟨[], [], [], some PyErr.noneSubscript⟩ := by
  have h1 := (pipeline_setting_behavior S0 env0 [] [] forge0 proj0 mr0 (some "failed")).1 rfl
  have h2 := (pipeline_setting_behavior Sreq env0 [] [] forge0 proj0 mr0 none).2
    rfl rfl rfl (by decide)
  exact ⟨h1, h2.1, h2.2⟩

/-! ## Lemmas: too-large merge requests -/

theorem bigEmailBody_contains (d r : String) (i : Nat) (u : String) :
    (∃ x y, bigEmailBody d r i u = x ++ r ++ y) ∧
    (∃ x y, bigEmailBody d r i u = x ++ u ++ y) := by
  constructor
  · exact ⟨bigPre d, bigMid i ++ u ++ "\n", by simp [bigEmailBody, String.append_assoc]⟩
  · exact ⟨bigPre d ++ r ++ bigMid i, "\n", by simp [bigEmailBody, String.append_assoc]⟩

/-- C8 (amended): for a merge request with more than one commit whose
commit count also exceeds `PATCHLAB_MAX_EMAILS`, `_prepare_emails` returns
exactly the cover letter, its body replaced by the "too large, fetch the
branch" template with the remote git URL (`<project web url>.git`) and the
merge request's web URL substituted in, and no per-commit email is
produced. -/
theorem prepareEmails_too_large
    (env : Env) (S : Settings) (db : List Row) (forge : Forge)
    (project : GlProject) (mr : MergeRequest) (branch : BranchRow)
    (hb : forge.branches.find? (fun b => b.name = mr.targetBranch) = some branch)
    (h1 : 1 < mr.commitsApi.length)
    (h2 : S.maxEmails < mr.commitsApi.length) :
    ∃ d cover,
      prepareEmails env S db forge project mr = [cover] ∧
      cover.body = bigEmailBody d (project.webUrl ++ ".git") mr.iid mr.webUrl ∧
      cover.xCommit = none ∧
      (∃ x y, cover.body = x ++ (project.webUrl ++ ".git") ++ y) ∧
      (∃ x y, cover.body = x ++ mr.webUrl ++ y) := by
  unfold prepareEmails
  rw [hb]
  simp only []
  rw [if_pos (show mr.commitsApi.reverse.length > 1 by
    rw [List.length_reverse]; exact h1)]
  rw [if_pos (show mr.commitsApi.reverse.length > S.maxEmails by
    rw [List.length_reverse]; exact h2)]
  refine ⟨_, _, rfl, rfl, rfl, ?_, ?_⟩
  · exact (bigEmailBody_contains _ _ _ _).1
  · exact (bigEmailBody_contains _ _ _ _).2

/-- `PATCHLAB_MAX_EMAILS` set to zero. -/
def Smax0 : Settings := { S0 with maxEmails := 0 }

/-- `PATCHLAB_MAX_EMAILS` set to one. -/
def Smax1 : Settings := { S0 with maxEmails := 1 }

/-- C8 counterexample: a one-commit merge request with
`PATCHLAB_MAX_EMAILS = 0` exceeds the configured maximum, yet
`_prepare_emails` runs the per-commit loop and returns a per-patch email
(carrying an `X-Patchlab-Commit` header), not the "too large" template —
the guard sits inside the `num_commits > 1` branch. -/
theorem too_large_counterexample :
    Smax0.maxEmails < mr0.commitsApi.length ∧
    (prepareEmails env0 Smax0 [] forge0 proj0 mr0).map Email.xCommit = [some "c1"] ∧
    (prepareEmails env0 Smax0 [] forge0 proj0 mr0).map Email.body =
      ["From: Author of c1\n\npatch body c1"] := by
  decide

/-- Witness for `prepareEmails_too_large` at a concrete two-commit merge
request with `PATCHLAB_MAX_EMAILS = 1`. -/
theorem too_large_witness :
    (prepareEmails env0 Smax1 [] forge0 proj0 mr2).length = 1 ∧
    (prepareEmails env0 Smax1 [] forge0 proj0 mr2).map Email.xCommit = [none] := by
  obtain ⟨d, cover, heq, hbody, hxc, _, _⟩ :=
    prepareEmails_too_large env0 Smax1 [] forge0 proj0 mr2 ⟨"master", "TEST", "PATCH"⟩
      (by decide) (by decide) (by decide)
  rw [heq]
  simp [hxc]

/-! ## Lemmas: git-am failure notification -/

theorem gitAmFailureBody_contains (b c u t : String) :
    (∃ x y, gitAmFailureBody b c u t = x ++ c ++ y) ∧
    (∃ x y, gitAmFailureBody b c u t = x ++ u ++ y) ∧
    (∃ x y, gitAmFailureBody b c u t = x ++ t ++ y) := by
  refine ⟨⟨gitAmA ++ b ++ gitAmB, gitAmC ++ u ++ gitAmD ++ t ++ gitAmE, ?_⟩,
    ⟨gitAmA ++ b ++ gitAmB ++ c ++ gitAmC, gitAmD ++ t ++ gitAmE, ?_⟩,
    ⟨gitAmA ++ b ++ gitAmB ++ c ++ gitAmC ++ u ++ gitAmD, gitAmE, ?_⟩⟩
  all_goals simp [gitAmFailureBody, String.append_assoc]

/-- C4 (amended): when git-am fails to apply a series whose branch
resolution succeeded, and the series' first patch itself resolves to a
branch `tb` (the notification path re-resolves from the first patch, not
the cover letter), `open_merge_request` creates no merge request and no
ledger row and sends exactly one notification email: to the submitter's
return address only, threaded via `In-Reply-To` to the cover letter's
message id (or the first patch's when there is no cover letter), with the
template body carrying `tb`'s current upstream commit hash, the forge
project's web URL and the series title. -/
theorem am_failure_notification
    (oenv : OpenEnv) (db : List Row) (forge : Forge) (series : Series)
    (p0 : Patch) (tb : String) (dt : String × String)
    (hget : oenv.projectGetStatus = none)
    (hdup : oenv.mrExists ("emails/series-" ++ natStr series.id) = false)
    (hres : resolveSeriesTarget oenv forge series = .ok dt)
    (ham : oenv.amOk = false)
    (hp0 : series.patches.head? = some p0)
    (htb : branchResolve oenv.search forge.branches p0.subjectHeader = .ok tb) :
    openMergeRequest oenv db forge series =
      ⟨none, db,
        [{ subject := "Re: " ++ series.name
           body := gitAmFailureBody tb (oenv.upstreamHead tb) forge.projectWebUrl series.name
           inReplyTo := match series.coverLetter with
             | some c => c.msgid
             | none => p0.msgid
           toAddrs := [series.submitterEmail] }],
        none⟩ ∧
    (∃ x y, gitAmFailureBody tb (oenv.upstreamHead tb) forge.projectWebUrl series.name =
      x ++ oenv.upstreamHead tb ++ y) ∧
    (∃ x y, gitAmFailureBody tb (oenv.upstreamHead tb) forge.projectWebUrl series.name =
      x ++ forge.projectWebUrl ++ y) ∧
    (∃ x y, gitAmFailureBody tb (oenv.upstreamHead tb) forge.projectWebUrl series.name =
      x ++ series.name ++ y) := by
  refine ⟨?_, (gitAmFailureBody_contains _ _ _ _).1,
    (gitAmFailureBody_contains _ _ _ _).2.1, (gitAmFailureBody_contains _ _ _ _).2.2⟩
  unfold openMergeRequest
  rw [hget]
  simp only []
  rw [if_neg (by rw [hdup]; simp)]
  rw [hres]
  simp only []
  rw [if_pos (by rw [ham]; rfl)]
  unfold notifyAmFailure
  rw [hp0]
  simp only []
  rw [htb]

/-- C4 counterexample: a series whose cover letter matches a branch regex
but whose only patch does not.  Branch resolution succeeds (via the cover
letter), git-am fails, and `_notify_am_failure` re-resolves from the first
patch: the uncaught `ValueError` escapes and zero notification emails are
sent, against the claim's "exactly one notification email". -/
theorem am_failure_counterexample :
    ({ oenv0 with amOk := false } : OpenEnv).amOk = false ∧
    (openMergeRequest { oenv0 with amOk := false } [] forge0 seriesCov).sent = [] ∧
    (openMergeRequest { oenv0 with amOk := false } [] forge0 seriesCov).err =
      some OpenErr.valueErr ∧
    (openMergeRequest { oenv0 with amOk := false } [] forge0 seriesCov).created = none := by
  decide

/-- Witness for `am_failure_notification` at a concrete cover-less
series. -/
theorem am_failure_witness :
    openMergeRequest { oenv0 with amOk := false } [] forge0 series2 =
      ⟨none, [],
        [{ subject := "Re: My series"
           body := gitAmFailureBody "master" "head-of-master"
             "https://forge/project" "My series"
           inReplyTo := "pm1"
           toAddrs := ["dev@example.com"] }],
        none⟩ := by
  have h := am_failure_notification { oenv0 with amOk := false } [] forge0 series2
    ⟨1, "pm1", "PATCH 1/2 one", "content1"⟩ "master" ("content1", "master")
    rfl (by decide) rfl rfl (by decide) rfl
  exact h.1

/-- C6: evaluating `open_merge_request` on a two-patch series pushed as
two commits.  `merge_request.commits()` returns newest first (the MR→email
path reverses this very list to obtain oldest-first order,
`src/patchlab/gitlab2email.py` line 238), so push order (oldest first) is
`["c1", "c2"]`; yet the ledger pairs patch 1 with `"c2"` — the newest
commit — and patch 2 with `"c1"`, because `open_merge_request` zips the
number-ordered patches against the unreversed API list. -/
theorem zip_order_eval :
    (openMergeRequest oenv0 [] forge0 series2).db =
      [{ msgid := "pm1", gitForge := 7, mergeRequest := 9,
         commit := some "c2", seriesVersion := none },
       { msgid := "pm2", gitForge := 7, mergeRequest := 9,
         commit := some "c1", seriesVersion := none }] ∧
    oenv0.mrCommits.reverse = ["c1", "c2"] ∧
    (openMergeRequest oenv0 [] forge0 series2).created =
      some ⟨9, "emails/series-3", "master", "My series", "```\ncontent1\n```",
        ["From email"]⟩ := by
  decide

/-- Witness for `prepareEmails_subjects_single_line`: the subject
synthesized for `mr0` (whose merge-request and commit titles both span two
lines) is a single line. -/
theorem subjects_single_line_witness : noNl ("[TEST PATCH] ct1 ct2" : String) :=
  prepareEmails_subjects_single_line env0 S0 [] forge0 proj0 mr0 (by decide)
    { subject := "[TEST PATCH] ct1 ct2", body := "From: Author of c1\n\npatch body c1"
      fromEmail := "Bridge on behalf of alice", toAddrs := ["list@example.com"]
      cc := ["a@x"], msgid := "<mid0>", inReplyTo := none, xCommit := some "c1"
      seriesVersion := 1, mrUrl := "https://forge/mr/5" } (by decide)
